import Mathlib

/-!
# Verification of the sample_report_handler laboratory-report pipeline

Shallow embedding of the report-review grid (frontend `ReportReview`,
`ReportHandling`, `FileUploader` components) together with the
spec-described backend Document Analyzer, and proofs of the frozen
claims about classification, filename validation, batch aggregation,
upload validation and grid editing.

JavaScript numbers are modelled as `ℚ` (the code only compares, adds and
multiplies by decimal constants); `NaN` is modelled by `Option.none` at
the points where the code tests `isNaN`.  JavaScript dictionaries are
modelled as association lists, and JS dynamic values occurring in the
grid cells as the sum type `JsVal`.
-/

set_option maxRecDepth 4000

/-- Cell colors produced by the classifier (`'green' | 'yellow' | 'red' | 'none'`). -/
inductive Color where
  | noColor
  | green
  | yellow
  | red
deriving DecidableEq, Repr

/-- A JavaScript dynamic value as it occurs in a grid cell / ag-grid event:
a string (text typed into an editor), a finite number, or `undefined`. -/
inductive JsVal where
  | str (s : String)
  | num (q : ℚ)
  | undef
deriving DecidableEq, Repr

/-- JavaScript strict equality `===` between two dynamic values: values of
different runtime types are never strictly equal. -/
def strictEq : JsVal → JsVal → Bool
  | JsVal.str a, JsVal.str b => a = b
  | JsVal.num a, JsVal.num b => a = b
  | JsVal.undef, JsVal.undef => true
  | _, _ => false

/-- Association-list lookup for a JS object used as a string-keyed map:
an absent key reads as `undefined`. -/
def jsGet (obj : List (String × JsVal)) (key : String) : JsVal :=
  match obj.find? (fun p => p.1 = key) with
  | some p => p.2
  | none => JsVal.undef

/-- Association-list update for a JS object: assignment overwrites the
first binding of the key, or appends a fresh binding. -/
def jsSet (obj : List (String × JsVal)) (key : String) (v : JsVal) : List (String × JsVal) :=
  match obj with
  | [] => [(key, v)]
  | (k, w) :: rest => if k = key then (key, v) :: rest else (k, w) :: jsSet rest key v

/-- One digit character. -/
def isDigitChar (c : Char) : Bool := '0' ≤ c && c ≤ '9'

/-- Numeric value of a digit character. -/
def digitVal (c : Char) : Nat := c.toNat - '0'.toNat

/-- Fold a list of digit characters into the base-10 natural they denote. -/
def digitsToNat (cs : List Char) : Nat :=
  cs.foldl (fun acc c => acc * 10 + digitVal c) 0

/-- JavaScript `parseInt` restricted to the shapes this code ever feeds it
(no leading whitespace, no sign, base 10): the longest leading run of
digits is converted, and `none` (JS `NaN`) is returned when the string
does not start with a digit. -/
def parseIntJS (s : String) : Option Nat :=
  let digits := s.data.takeWhile isDigitChar
  if digits.isEmpty then none else some (digitsToNat digits)

/-- Parse an unsigned decimal-fraction literal: longest leading digit run,
optionally followed by `'.'` and a further digit run.  Returns the value
together with a flag telling whether at least one digit was consumed. -/
def parseDecFrac (cs : List Char) : Option ℚ :=
  let intPart := cs.takeWhile isDigitChar
  let rest := cs.drop intPart.length
  match rest with
  | '.' :: rest2 =>
      let fracPart := rest2.takeWhile isDigitChar
      if intPart.isEmpty && fracPart.isEmpty then none
      else some ((digitsToNat intPart : ℚ) +
        (digitsToNat fracPart : ℚ) / ((10 : ℚ) ^ fracPart.length))
  | _ => if intPart.isEmpty then none else some (digitsToNat intPart)

/-- JavaScript `parseFloat` on a string, modelled for decimal literals with
optional sign (exponent notation and `Infinity` are not used by any input
this code parses): `none` is JS `NaN`. -/
def parseFloatStr (s : String) : Option ℚ :=
  match s.data with
  | '-' :: rest => (parseDecFrac rest).map (fun q => -q)
  | '+' :: rest => parseDecFrac rest
  | cs => parseDecFrac cs

/-- JavaScript `parseFloat` applied to a dynamic value (a number is
stringified and re-parsed, which is the identity on finite numbers;
`undefined` parses as `NaN`). -/
def parseFloat : JsVal → Option ℚ
  | JsVal.str s => parseFloatStr s
  | JsVal.num q => some q
  | JsVal.undef => none

/-! ## Reference ranges and `getColorForValue` (ReportReview, src/unnamed/part_008) -/

/-- One reference-range table: compound name ↦ `[lower, upper]`,
as the JSON dictionaries in `ProcessedReportData.reference_ranges`. -/
def RangeTable := List (String × (ℚ × ℚ))

/-- Dictionary lookup in a range table (`ranges[compound]`,
`undefined` modelled as `none`). -/
def rangeLookup (t : RangeTable) (compound : String) : Option (ℚ × ℚ) :=
  match t.find? (fun p => p.1 = compound) with
  | some p => some p.2
  | none => none

/-- The `reference_ranges` object of `ProcessedReportData` (reportApi.ts):
per-tier tables.  `ratios` is accessed with optional chaining
(`ratios?.[compound]`) in the grid code, so it is modelled as optional. -/
structure ReferenceRanges where
  patient : RangeTable
  control_1 : RangeTable
  control_2 : RangeTable
  ratios : Option RangeTable
  biochemical : RangeTable

/-- The slice of `ProcessedReportData` that the review grid's recoloring
logic consults. -/
structure ProcessedReportData where
  reference_ranges : ReferenceRanges

/-- `getColorForValue` (src/unnamed/part_008, lines 286–316): recalculate a
cell color from a compound, a possibly-absent numeric value and the row's
role flags.  Returns `'none'` when there is no data, no value or no
configured range; otherwise green within `[min,max]`, red beyond the
critical cutoffs `min·0.5` / `max·1.5`, yellow in between. -/
def getColorForValue (processedData : Option ProcessedReportData) (compound : String)
    (value : Option ℚ) (isControl1 isControl2 isRatio : Bool) : Color :=
  match processedData, value with
  | none, _ => Color.noColor
  | some _, none => Color.noColor
  | some pd, some v =>
    let ranges : Option (ℚ × ℚ) :=
      if isRatio then
        match pd.reference_ranges.ratios with
        | some t => rangeLookup t compound
        | none => none
      else if isControl1 then rangeLookup pd.reference_ranges.control_1 compound
      else if isControl2 then rangeLookup pd.reference_ranges.control_2 compound
      else rangeLookup pd.reference_ranges.patient compound
    match ranges with
    | none => Color.noColor
    | some (mn, mx) =>
      if mn ≤ v ∧ v ≤ mx then Color.green
      else
        let lowerCritical := mn * (0.5 : ℚ)
        let upperCritical := mx * (1.5 : ℚ)
        if v < lowerCritical ∨ v > upperCritical then Color.red
        else Color.yellow

/-- In the grid code the call `getColorForValue(field, numValue, isControl1,
isControl2)` omits the last parameter, whose declared default is `false`. -/
def getColorForValueDefault (processedData : Option ProcessedReportData) (compound : String)
    (value : Option ℚ) (isControl1 isControl2 : Bool) : Color :=
  getColorForValue processedData compound value isControl1 isControl2 false

/-- The range-selection step of `getColorForValue` in isolation: which table
entry a (role, ratio-flag) combination reads. -/
def selectRanges (pd : ProcessedReportData) (compound : String)
    (isControl1 isControl2 isRatio : Bool) : Option (ℚ × ℚ) :=
  if isRatio then
    match pd.reference_ranges.ratios with
    | some t => rangeLookup t compound
    | none => none
  else if isControl1 then rangeLookup pd.reference_ranges.control_1 compound
  else if isControl2 then rangeLookup pd.reference_ranges.control_2 compound
  else rangeLookup pd.reference_ranges.patient compound

/-- The threshold policy of `getColorForValue` in isolation: the verdict for
a present value against one configured range, with the fixed multipliers
`0.5` and `1.5` (the same constants for every compound and tier). -/
def applyCriticalPolicy (mn mx v : ℚ) : Color :=
  if mn ≤ v ∧ v ≤ mx then Color.green
  else if v < mn * (0.5 : ℚ) ∨ v > mx * (1.5 : ℚ) then Color.red
  else Color.yellow

/-! ## The review grid's editing state (ReportReview, src/unnamed/part_008) -/

/-- One row object of the grid's `rowData` state, as assembled from
`processed_data` (id = row index, role flags, and a JS object holding the
compound values, `<compound>_color` and `<compound>_original` keys). -/
structure Row where
  id : Nat
  isControl1 : Bool
  isControl2 : Bool
  cells : List (String × JsVal)
deriving DecidableEq, Repr

/-- The component state touched by cell editing: the `rowData` array and the
`editedCells` set (a JS `Set` of `"rowId-field"` keys, modelled as a
duplicate-free insertion list). -/
structure GridState where
  rowData : List Row
  editedCells : List String
deriving DecidableEq, Repr

/-- `Set.add`: inserting an element already present leaves the set as is. -/
def setAdd (s : List String) (x : String) : List String :=
  if x ∈ s then s else s ++ [x]

/-- The fields of an ag-grid `CellEditingStoppedEvent` that
`onCellEditingStopped` reads: the row data object, the edited column's
field, and the editor's old/new values. -/
structure EditEvent where
  data : Row
  field : String
  newValue : JsVal
  oldValue : JsVal
deriving DecidableEq, Repr

/-- The string name a `Color` carries in the grid's `_color` cells. -/
def colorName : Color → String
  | Color.noColor => "none"
  | Color.green => "green"
  | Color.yellow => "yellow"
  | Color.red => "red"

/-- Update one row of `rowData`: `updatedData[rowIndex][field] = numValue;
updatedData[rowIndex][field + "_color"] = newColor`. -/
def updateRowCells (r : Row) (field : String) (numValue : ℚ) (newColor : Color) : Row :=
  let cells' := jsSet (jsSet r.cells field (JsVal.num numValue))
    (field ++ "_color") (JsVal.str (colorName newColor))
  { r with cells := cells' }

/-- `onCellEditingStopped` (src/unnamed/part_008, lines 319–357).  Returns
the next component state together with the list of `setDataValue` calls the
handler issues back into the grid (the reset of an invalid edit).  The
early returns leave the state untouched; a non-numeric `newValue`
(`isNaN(parseFloat(newValue))`) resets the cell to `oldValue` and changes
nothing; a numeric edit recomputes the color via `getColorForValue` with
the `isRatio` parameter left at its default `false`, rewrites the row, and
marks the cell key `"id-field"` as edited. -/
def onCellEditingStopped (processedData : Option ProcessedReportData)
    (st : GridState) (ev : EditEvent) : GridState × List (Nat × String × JsVal) :=
  if ev.field = "sampleName" ∨ ev.field = "rowType" then (st, [])
  else if strictEq ev.newValue ev.oldValue then (st, [])
  else
    match parseFloat ev.newValue with
    | none => (st, [(ev.data.id, ev.field, ev.oldValue)])
    | some numValue =>
      let newColor := getColorForValueDefault processedData ev.field (some numValue)
        ev.data.isControl1 ev.data.isControl2
      let rowData' :=
        match st.rowData.findIdx? (fun row => row.id = ev.data.id) with
        | some rowIndex =>
            st.rowData.set rowIndex
              (updateRowCells (st.rowData.getD rowIndex ev.data) ev.field numValue newColor)
        | none => st.rowData
      let cellKey := toString ev.data.id ++ "-" ++ ev.field
      ({ rowData := rowData', editedCells := setAdd st.editedCells cellKey }, [])

/-- The `valueSetter` of every compound column (src/unnamed/part_008,
lines 514–521): parse the entered value; on a number, write it into the row
object and report the edit as applied; on `NaN`, leave the row unchanged
and report the edit as rejected. -/
def valueSetter (data : Row) (field : String) (newValue : JsVal) : Row × Bool :=
  match parseFloat newValue with
  | some n => ({ data with cells := jsSet data.cells field (JsVal.num n) }, true)
  | none => (data, false)

/-- Split a character list at every occurrence of `sep`
(JavaScript `String.prototype.split` with a one-character separator). -/
def splitOnChar (sep : Char) : List Char → List (List Char)
  | [] => [[]]
  | c :: cs =>
    let r := splitOnChar sep cs
    if c = sep then [] :: r
    else
      match r with
      | [] => [[c]]
      | h :: t => (c :: h) :: t

/-- The per-key body of `getEditedData` (src/unnamed/part_008, lines
393–407): split the cell key at `'-'`, destructure the first two segments
as row id and compound (a missing segment is JS `undefined`, which reads
property `"undefined"`), parse the id, look the row up by id, and return
the row's current value for the compound when it is defined. -/
def editedCellValue (st : GridState) (cellKey : String) : Option JsVal :=
  let parts := (splitOnChar '-' cellKey.data).map String.mk
  let rowIdStr := parts.getD 0 "undefined"
  let compound := parts.getD 1 "undefined"
  match parseIntJS rowIdStr with
  | none => none
  | some rowId =>
    match st.rowData.find? (fun r => r.id = rowId) with
    | none => none
    | some row =>
      match jsGet row.cells compound with
      | JsVal.undef => none
      | v => some v

/-- `getEditedData` (src/unnamed/part_008, lines 393–407): for every edited
cell key, record the row's current value under the full key whenever the
key resolves to a defined cell. -/
def getEditedData (st : GridState) : List (String × JsVal) :=
  st.editedCells.foldl (fun editedData cellKey =>
    match editedCellValue st cellKey with
    | none => editedData
    | some v => jsSet editedData cellKey v) []

/-! ## Filename validation (ReportHandling.tsx, `validateFiles`) -/

/-- `extractFileInfo` (ReportHandling.tsx, lines 61–67): match the filename
against `^(\d{8})_(AA|AC|AC_EXT)\.txt$` and return the date capture and the
type capture, or `none` when the regex does not match (the code throws
`Invalid filename format`).  The alternation is resolved exactly as the
backtracking regex does: the type is whatever stands between the `_` after
the eight digits and the final `.txt`. -/
def extractFileInfo (filename : String) : Option (String × String) :=
  if (filename.data.take 8).length = 8 ∧ (filename.data.take 8).all isDigitChar then
    if filename.data.drop 8 = "_AA.txt".data then
      some (String.mk (filename.data.take 8), "AA")
    else if filename.data.drop 8 = "_AC.txt".data then
      some (String.mk (filename.data.take 8), "AC")
    else if filename.data.drop 8 = "_AC_EXT.txt".data then
      some (String.mk (filename.data.take 8), "AC_EXT")
    else none
  else none

/-- `validateFiles` (ReportHandling.tsx, lines 49–111), applied to the three
filenames once all three files are present: extract each file's info
(format failure throws), require the three date tokens to be equal, require
the set of the three types to have size three and contain AA, AC and
AC_EXT, and require the date components parsed from the first date token to
lie in the valid ranges.  Success reports the shared date token. -/
def validateFiles (name1 name2 name3 : String) : Except String String :=
  match extractFileInfo name1 with
  | none => Except.error ("Invalid filename format: \"" ++ name1 ++ "\". Expected: DDMMYYYY_XX.txt")
  | some info1 =>
  match extractFileInfo name2 with
  | none => Except.error ("Invalid filename format: \"" ++ name2 ++ "\". Expected: DDMMYYYY_XX.txt")
  | some info2 =>
  match extractFileInfo name3 with
  | none => Except.error ("Invalid filename format: \"" ++ name3 ++ "\". Expected: DDMMYYYY_XX.txt")
  | some info3 =>
  if ¬(info1.1 = info2.1 ∧ info2.1 = info3.1) then
    Except.error "Date mismatch. All files must have the same date."
  else
    let types := [info1.2, info2.2, info3.2]
    if ¬(types.dedup.length = 3 ∧ "AA" ∈ types ∧ "AC" ∈ types ∧ "AC_EXT" ∈ types) then
      Except.error "Missing or duplicate file types. Expected one of each: AA, AC, AC_EXT."
    else
      let day := digitsToNat (info1.1.data.take 2)
      let month := digitsToNat ((info1.1.data.drop 2).take 2)
      let year := digitsToNat (info1.1.data.drop 4)
      if day < 1 ∨ day > 31 then Except.error "Invalid day"
      else if month < 1 ∨ month > 12 then Except.error "Invalid month"
      else if year < 2000 ∨ year > 2100 then Except.error "Invalid year"
      else Except.ok info1.1

/-- Spec-side statement of the filename grammar of claim C2
(`^(\d{2})(\d{2})(\d{4})_(AA|AC|AC_EXT)\.txt$`), written from the spec's
words for comparison with `extractFileInfo`: the name decomposes into a
two-digit day token, a two-digit month token, a four-digit year token, an
underscore, one of the three type tags and the `.txt` suffix. -/
def specMatchesGrammar (name dd mm yyyy t : String) : Prop :=
  dd.data.length = 2 ∧ mm.data.length = 2 ∧ yyyy.data.length = 4 ∧
  dd.data.all isDigitChar = true ∧ mm.data.all isDigitChar = true ∧
  yyyy.data.all isDigitChar = true ∧
  t ∈ (["AA", "AC", "AC_EXT"] : List String) ∧
  name = dd ++ mm ++ yyyy ++ "_" ++ t ++ ".txt"

/-- Spec-side acceptance condition of claim C2 for a triplet of filenames:
each matches the grammar, all three share the date token, the three types
are pairwise distinct (hence exactly cover {AA, AC, AC_EXT}), and the
numeric date components are in range. -/
def specValidTriplet (n1 n2 n3 : String) : Prop :=
  ∃ dd mm yyyy t1 t2 t3,
    specMatchesGrammar n1 dd mm yyyy t1 ∧
    specMatchesGrammar n2 dd mm yyyy t2 ∧
    specMatchesGrammar n3 dd mm yyyy t3 ∧
    t1 ≠ t2 ∧ t1 ≠ t3 ∧ t2 ≠ t3 ∧
    (∀ t ∈ (["AA", "AC", "AC_EXT"] : List String), t = t1 ∨ t = t2 ∨ t = t3) ∧
    1 ≤ digitsToNat dd.data ∧ digitsToNat dd.data ≤ 31 ∧
    1 ≤ digitsToNat mm.data ∧ digitsToNat mm.data ≤ 12 ∧
    2000 ≤ digitsToNat yyyy.data ∧ digitsToNat yyyy.data ≤ 2100

/-! ## Upload validation (FileUploader.tsx and ReportAnalyser, src/unnamed/part_009) -/

/-- Remove the first occurrence of a character
(JavaScript `String.prototype.replace` with a one-character pattern). -/
def removeFirstChar (c : Char) : List Char → List Char
  | [] => []
  | x :: xs => if x = c then xs else x :: removeFirstChar c xs

/-- ASCII lowercasing of one character (`String.prototype.toLowerCase` on
the ASCII filenames this uploader sees). -/
def lowerChar (c : Char) : Char :=
  if 'A' ≤ c ∧ c ≤ 'Z' then Char.ofNat (c.toNat + 32) else c

/-- Whitespace test for `String.prototype.trim`. -/
def isSpaceChar (c : Char) : Bool := c = ' ' ∨ c = '\t' ∨ c = '\n' ∨ c = '\r'

/-- `String.prototype.trim`: strip whitespace from both ends. -/
def trimChars (cs : List Char) : List Char :=
  ((cs.dropWhile isSpaceChar).reverse.dropWhile isSpaceChar).reverse

/-- `Array.prototype.pop` on a split result: the last element
(the default is never reached, `split` always returns a nonempty array). -/
def lastD (l : List String) (d : String) : String :=
  match l with
  | [] => d
  | [x] => x
  | _ :: xs => lastD xs d

/-- `file.name.toLowerCase().split('.').pop()`: the extension the uploader
computes — the last `'.'`-separated segment of the lowercased name (for a
dotless name this is the whole name, exactly as `split`/`pop` behave). -/
def fileExtensionOf (name : String) : String :=
  lastD ((splitOnChar '.' (name.data.map lowerChar)).map String.mk) ""

/-- `validateFile` (FileUploader.tsx, lines 37–56): reject an extension
outside the accepted list; otherwise enforce a 50MB cap for PDFs and the
configured `maxSizeMB` cap for other (ZIP) files.  `none` means the file is
accepted; `some msg` is the alert message. -/
def validateFile (acceptedTypes : String) (maxSizeMB : ℚ)
    (fileName : String) (fileSize : ℚ) : Option String :=
  let fileExtension := fileExtensionOf fileName
  let acceptedExtensions := (splitOnChar ',' acceptedTypes.data).map
    (fun t => String.mk (removeFirstChar '.' (trimChars t)))
  if ¬ fileExtension ∈ acceptedExtensions then
    some ("Invalid file type. Please upload a PDF or ZIP file. Accepted types: " ++ acceptedTypes)
  else
    let fileSizeMB := fileSize / (1024 * 1024)
    let isPDF := fileExtension = "pdf"
    let actualLimit : ℚ := if isPDF then 50 else maxSizeMB
    if fileSizeMB > actualLimit then
      some ("File size exceeds limit for " ++ (if isPDF then "PDF" else "ZIP") ++ " files")
    else none

/-- The document-analysis upload path: `ReportAnalyser`
(src/unnamed/part_009, lines 144–150) instantiates `FileUploader` with
`acceptedTypes=".pdf,.zip"` and `maxSizeMB={200}`. -/
def reportAnalyserValidateFile (fileName : String) (fileSize : ℚ) : Option String :=
  validateFile ".pdf,.zip" 200 fileName fileSize

/-- `handleFileChange` / `handleDrop` (FileUploader.tsx): on a validation
error the handler alerts and returns without touching the selection, so the
rejected file never becomes `selectedFile` and `handleUploadClick` /
auto-submit can never pass it to `onFileSelect`.  Returns the new
`selectedFile` state of the document-analysis uploader. -/
def handleFileChange (selectedFile : Option (String × ℚ))
    (fileName : String) (fileSize : ℚ) : Option (String × ℚ) :=
  match reportAnalyserValidateFile fileName fileSize with
  | some _ => selectedFile
  | none => some (fileName, fileSize)

/-! ## The backend Document Analyzer, modelled from the spec

The Python analyzer itself is not part of the checked-out sources; only
its TypeScript result types are (src/unnamed/part_006).  The definitions
below are therefore written from the spec's §4.3 and §4.6 contracts and
carry `Modelled from the spec` markers. -/

/-- The classifier verdicts of spec §4.3 (`normal`, `out-of-range`,
`critical`) together with the two non-verdict outcomes (`not evaluated`
for an absent value, `no reference available` for a missing range). -/
inductive Verdict where
  | normal
  | outOfRange
  | critical
  | notEvaluated
  | noReference
deriving DecidableEq, Repr

/-- Modelled from the spec: the backend Reference Range Classifier
(spec §4.3), whose Python source is not under src/.  Pure function
`classify(compound, tier, value) → (verdict, color)`: an absent value is
"not evaluated" (no color, not an error); a missing `(compound, tier)`
range entry is "no reference available" (no color, not an error);
otherwise normal/green inside `[lower, upper]`, critical/red beyond the
`lower·0.5` / `upper·1.5` cutoffs, out-of-range/yellow in between.  The
tier is represented by the range table passed in. -/
def classify (tierTable : RangeTable) (compound : String) (value : Option ℚ) :
    Verdict × Color :=
  match value with
  | none => (Verdict.notEvaluated, Color.noColor)
  | some v =>
    match rangeLookup tierTable compound with
    | none => (Verdict.noReference, Color.noColor)
    | some (lower, upper) =>
      if lower ≤ v ∧ v ≤ upper then (Verdict.normal, Color.green)
      else if v < lower * (0.5 : ℚ) ∨ v > upper * (1.5 : ℚ) then
        (Verdict.critical, Color.red)
      else (Verdict.outOfRange, Color.yellow)

/-- One named measurement extracted from a document (analyte plus a
possibly absent numeric value). -/
structure Measurement where
  analyte : String
  value : Option ℚ
deriving DecidableEq, Repr

/-- One entry of the `abnormalities` list of an `AnalysisResult`
(src/unnamed/part_006): the analyte together with its non-normal verdict. -/
structure AbnormalityEntry where
  analyte : String
  verdict : Verdict
deriving DecidableEq, Repr

/-- The `AnalysisSummary` schema (src/unnamed/part_006, lines 47–52). -/
structure AnalysisSummary where
  total_tests : Nat
  normal_count : Nat
  abnormal_count : Nat
  status : String
deriving DecidableEq, Repr

/-- The slice of the `AnalysisResult` schema (src/unnamed/part_006,
lines 54–64) that the claims are about. -/
structure AnalysisResult where
  file_name : String
  abnormalities : List AbnormalityEntry
  summary : AnalysisSummary
deriving DecidableEq, Repr

/-- Whether a verdict makes a measurement abnormal: only out-of-range and
critical do — "not evaluated" and "no reference available" are excluded
from abnormality counts (spec §7, classification gap). -/
def isAbnormalVerdict : Verdict → Bool
  | Verdict.outOfRange => true
  | Verdict.critical => true
  | _ => false

/-- Modelled from the spec: the single-document contract of the backend
Document Analyzer (spec §4.6), whose Python source is not under src/.
Every measurement is classified against the patient tier; every
out-of-range or critical measurement lands in `abnormalities`; the
summary counts total tests, normal verdicts and abnormalities, and the
status is "abnormal" exactly when any abnormality exists. -/
def analyzeDocument (patientTable : RangeTable) (fileName : String)
    (measurements : List Measurement) : AnalysisResult :=
  let abnormalities := measurements.filterMap (fun m =>
    let verdict := (classify patientTable m.analyte m.value).1
    if isAbnormalVerdict verdict then some ⟨m.analyte, verdict⟩ else none)
  { file_name := fileName
    abnormalities := abnormalities
    summary :=
      { total_tests := measurements.length
        normal_count := measurements.countP (fun m =>
          (classify patientTable m.analyte m.value).1 = Verdict.normal)
        abnormal_count := abnormalities.length
        status := if abnormalities.isEmpty then "normal" else "abnormal" } }

/-- One entry of `failed_reports` (src/unnamed/part_006, lines 72–75). -/
structure FailedReport where
  path : String
  error : String
deriving DecidableEq, Repr

/-- The `BatchAnalysisResponse` count-and-bucket fields
(src/unnamed/part_006, lines 78–89). -/
structure BatchResult where
  total : Nat
  successful : Nat
  failed : Nat
  normal : Nat
  abnormal : Nat
  normal_reports : List AnalysisResult
  abnormal_reports : List AnalysisResult
  failed_reports : List FailedReport
deriving DecidableEq, Repr

/-- Whether a per-document outcome succeeded. -/
def outcomeOk (r : Except String AnalysisResult) : Bool :=
  match r with
  | Except.ok _ => true
  | Except.error _ => false

/-- Modelled from the spec: the per-item bucketing reducer of the batch
contract (spec §4.6 and §9), whose Python source is not under src/.
Each `(path, outcome)` pair is processed independently and in order: an
error is recorded in the failures bucket, a successful result is bucketed
by its summary status. -/
def batchBuckets :
    List (String × Except String AnalysisResult) →
      List AnalysisResult × List AnalysisResult × List FailedReport
  | [] => ([], [], [])
  | item :: rest =>
    let (normals, abnormals, failures) := batchBuckets rest
    match item.2 with
    | Except.error e => (normals, abnormals, ⟨item.1, e⟩ :: failures)
    | Except.ok r =>
      if r.summary.status = "abnormal" then (normals, r :: abnormals, failures)
      else (r :: normals, abnormals, failures)

/-- Modelled from the spec: batch aggregation (spec §4.6), whose Python
source is not under src/.  Folds the ordered per-document outcomes into
the three-way bucketed `BatchResult` with the counts the schema carries:
`total` counts the documents, `successful`/`failed` count the outcomes of
each kind, `normal`/`abnormal` count the buckets. -/
def processBatch (items : List (String × Except String AnalysisResult)) : BatchResult :=
  let buckets := batchBuckets items
  { total := items.length
    successful := items.countP (fun item => outcomeOk item.2)
    failed := items.countP (fun item => ¬ outcomeOk item.2)
    normal := buckets.1.length
    abnormal := buckets.2.1.length
    normal_reports := buckets.1
    abnormal_reports := buckets.2.1
    failed_reports := buckets.2.2 }

/-! ## Claim C1: the classification property, corrected -/

/-- The three-way classification property that claim C1 asserts of one
configured range `(mn, mx)` and one present value `v`: green iff within
the range, red iff beyond the half/one-and-a-half cutoffs, yellow iff
neither. -/
def rangeClassSpec (mn mx v : ℚ) (c : Color) : Prop :=
  (c = Color.green ↔ mn ≤ v ∧ v ≤ mx) ∧
  (c = Color.red ↔ v < mn * (0.5 : ℚ) ∨ v > mx * (1.5 : ℚ)) ∧
  (c = Color.yellow ↔
    ¬(mn ≤ v ∧ v ≤ mx) ∧ ¬(v < mn * (0.5 : ℚ) ∨ v > mx * (1.5 : ℚ)))

/-- Claim C1 exactly as stated: for every compound, tier and present value
for which a range `(lower, upper)` with `lower ≤ upper` is configured, the
computed color satisfies the three-way property. -/
def claimC1 : Prop :=
  ∀ (pd : ProcessedReportData) (compound : String) (v : ℚ) (b1 b2 r : Bool) (mn mx : ℚ),
    selectRanges pd compound b1 b2 r = some (mn, mx) → mn ≤ mx →
    rangeClassSpec mn mx v (getColorForValue (some pd) compound (some v) b1 b2 r)

/-- A configuration with a negative reference range, on which claim C1 as
stated fails: the patient range for "GLY" is `(-4, -2)`. -/
def pdNegRange : ProcessedReportData :=
  ⟨⟨[("GLY", (-4, -2))], [], [], none, []⟩⟩

/-- Decimal digit characters of a natural number, most significant first
(the characters JavaScript template interpolation produces for the
numeric row id). -/
def natChars (n : Nat) : List Char :=
  if h : n < 10 then [Nat.digitChar n]
  else natChars (n / 10) ++ [Nat.digitChar (n % 10)]
termination_by n
decreasing_by exact Nat.div_lt_self (by omega) (by omega)

/-- Whether the validator accepted (the `valid: true` outcome). -/
def isAccepted (e : Except String String) : Bool :=
  match e with
  | Except.ok _ => true
  | Except.error _ => false

theorem getColorForValue_eq_policy (pd : ProcessedReportData) (compound : String)
    (v : ℚ) (isControl1 isControl2 isRatio : Bool) :
    getColorForValue (some pd) compound (some v) isControl1 isControl2 isRatio =
      match selectRanges pd compound isControl1 isControl2 isRatio with
      | none => Color.noColor
      | some (mn, mx) => applyCriticalPolicy mn mx v := by
  unfold getColorForValue selectRanges applyCriticalPolicy
  rcases h : (if isRatio then
      match pd.reference_ranges.ratios with
      | some t => rangeLookup t compound
      | none => none
    else if isControl1 then rangeLookup pd.reference_ranges.control_1 compound
    else if isControl2 then rangeLookup pd.reference_ranges.control_2 compound
    else rangeLookup pd.reference_ranges.patient compound) with _ | ⟨mn, mx⟩ <;> simp [h]

/-! ## Claims C3 and C4: analyzer summary and batch invariants -/

/-- C4: for every single-document analysis result, the summary status is
"normal" iff the abnormalities list is empty, "abnormal" iff it has at
least one entry, and `abnormal_count` equals the length of the
abnormalities list. -/
theorem analysisSummary_status_correct (patientTable : RangeTable) (fileName : String)
    (measurements : List Measurement) :
    ((analyzeDocument patientTable fileName measurements).summary.status = "normal" ↔
      (analyzeDocument patientTable fileName measurements).abnormalities = []) ∧
    ((analyzeDocument patientTable fileName measurements).summary.status = "abnormal" ↔
      (analyzeDocument patientTable fileName measurements).abnormalities ≠ []) ∧
    (analyzeDocument patientTable fileName measurements).summary.abnormal_count =
      (analyzeDocument patientTable fileName measurements).abnormalities.length := by
  unfold analyzeDocument
  by_cases h : (measurements.filterMap (fun m =>
      let verdict := (classify patientTable m.analyte m.value).1
      if isAbnormalVerdict verdict then some ⟨m.analyte, verdict⟩ else none) :
        List AbnormalityEntry) = []
  · simp [h]
  · simp [h, List.isEmpty_iff]


theorem outcomeOk_ok (r : AnalysisResult) : outcomeOk (Except.ok r) = true := rfl

theorem outcomeOk_error (e : String) :
    outcomeOk (Except.error e : Except String AnalysisResult) = false := rfl

/-- Unfolding of the bucketing reducer: a failed item. -/
theorem batchBuckets_cons_error (path e : String)
    (rest : List (String × Except String AnalysisResult)) :
    batchBuckets ((path, Except.error e) :: rest) =
      ((batchBuckets rest).1, (batchBuckets rest).2.1,
        (⟨path, e⟩ : FailedReport) :: (batchBuckets rest).2.2) := by
  rcases hb : batchBuckets rest with ⟨ns, abn, fs⟩
  simp [batchBuckets, hb]

/-- Unfolding of the bucketing reducer: a successful abnormal item. -/
theorem batchBuckets_cons_abnormal (path : String) (r : AnalysisResult)
    (rest : List (String × Except String AnalysisResult))
    (hst : r.summary.status = "abnormal") :
    batchBuckets ((path, Except.ok r) :: rest) =
      ((batchBuckets rest).1, r :: (batchBuckets rest).2.1, (batchBuckets rest).2.2) := by
  rcases hb : batchBuckets rest with ⟨ns, abn, fs⟩
  simp [batchBuckets, hb, hst]

/-- Unfolding of the bucketing reducer: a successful normal item. -/
theorem batchBuckets_cons_normal (path : String) (r : AnalysisResult)
    (rest : List (String × Except String AnalysisResult))
    (hst : ¬ r.summary.status = "abnormal") :
    batchBuckets ((path, Except.ok r) :: rest) =
      (r :: (batchBuckets rest).1, (batchBuckets rest).2.1, (batchBuckets rest).2.2) := by
  rcases hb : batchBuckets rest with ⟨ns, abn, fs⟩
  simp [batchBuckets, hb, hst]

/-- The buckets contain a result iff a matching successful outcome is in the
items and the result's status selects that bucket. -/
theorem batchBuckets_mem (items : List (String × Except String AnalysisResult))
    (r : AnalysisResult) :
    (r ∈ (batchBuckets items).1 ↔
      (∃ path, (path, Except.ok r) ∈ items) ∧ ¬ r.summary.status = "abnormal") ∧
    (r ∈ (batchBuckets items).2.1 ↔
      (∃ path, (path, Except.ok r) ∈ items) ∧ r.summary.status = "abnormal") := by
  induction items with
  | nil => simp [batchBuckets]
  | cons item rest ih =>
    obtain ⟨path, res⟩ := item
    rcases res with e | r'
    · rw [batchBuckets_cons_error]
      simpa using ih
    · by_cases hst : r'.summary.status = "abnormal"
      · rw [batchBuckets_cons_abnormal path r' rest hst]
        simp only [List.mem_cons, ih.1, ih.2, Prod.mk.injEq, Except.ok.injEq]
        constructor
        · constructor
          · rintro ⟨⟨p, hp⟩, hn⟩
            exact ⟨⟨p, Or.inr hp⟩, hn⟩
          · rintro ⟨⟨p, ⟨rfl, rfl⟩ | hp⟩, hn⟩
            · exact absurd hst hn
            · exact ⟨⟨p, hp⟩, hn⟩
        · constructor
          · rintro (rfl | ⟨⟨p, hp⟩, ha⟩)
            · exact ⟨⟨path, Or.inl ⟨rfl, rfl⟩⟩, hst⟩
            · exact ⟨⟨p, Or.inr hp⟩, ha⟩
          · rintro ⟨⟨p, ⟨rfl, rfl⟩ | hp⟩, ha⟩
            · exact Or.inl rfl
            · exact Or.inr ⟨⟨p, hp⟩, ha⟩
      · rw [batchBuckets_cons_normal path r' rest hst]
        simp only [List.mem_cons, ih.1, ih.2, Prod.mk.injEq, Except.ok.injEq]
        constructor
        · constructor
          · rintro (rfl | ⟨⟨p, hp⟩, hn⟩)
            · exact ⟨⟨path, Or.inl ⟨rfl, rfl⟩⟩, hst⟩
            · exact ⟨⟨p, Or.inr hp⟩, hn⟩
          · rintro ⟨⟨p, ⟨rfl, rfl⟩ | hp⟩, hn⟩
            · exact Or.inl rfl
            · exact Or.inr ⟨⟨p, hp⟩, hn⟩
        · constructor
          · rintro ⟨⟨p, hp⟩, ha⟩
            exact ⟨⟨p, Or.inr hp⟩, ha⟩
          · rintro ⟨⟨p, ⟨rfl, rfl⟩ | hp⟩, ha⟩
            · exact absurd ha hst
            · exact ⟨⟨p, hp⟩, ha⟩

/-- The two success buckets together count the successful outcomes, and the
failure bucket counts the failed ones. -/
theorem batchBuckets_length (items : List (String × Except String AnalysisResult)) :
    (batchBuckets items).1.length + (batchBuckets items).2.1.length =
      items.countP (fun item => outcomeOk item.2) ∧
    (batchBuckets items).2.2.length =
      items.countP (fun item => decide ¬ outcomeOk item.2 = true) := by
  induction items with
  | nil => simp [batchBuckets]
  | cons item rest ih =>
    obtain ⟨path, res⟩ := item
    rcases res with e | r
    · rw [batchBuckets_cons_error]
      simp only [List.countP_cons, outcomeOk_error, List.length_cons, ← ih.1, ← ih.2]
      constructor <;> simp
    · by_cases hst : r.summary.status = "abnormal"
      · rw [batchBuckets_cons_abnormal path r rest hst]
        simp only [List.countP_cons, outcomeOk_ok, List.length_cons, ← ih.1, ← ih.2]
        constructor <;> simp <;> omega
      · rw [batchBuckets_cons_normal path r rest hst]
        simp only [List.countP_cons, outcomeOk_ok, List.length_cons, ← ih.1, ← ih.2]
        constructor <;> simp <;> omega

/-- C3: for every batch run, `total = successful + failed`,
`successful = len(normal_reports) + len(abnormal_reports)`,
`abnormal = len(abnormal_reports)`, and every successfully processed
document lands in exactly the bucket selected by its status. -/
theorem batchResult_invariants (items : List (String × Except String AnalysisResult)) :
    (processBatch items).total = (processBatch items).successful + (processBatch items).failed ∧
    (processBatch items).successful =
      (processBatch items).normal_reports.length + (processBatch items).abnormal_reports.length ∧
    (processBatch items).abnormal = (processBatch items).abnormal_reports.length ∧
    (∀ path r, (path, Except.ok r) ∈ items →
      ((r ∈ (processBatch items).normal_reports ↔ ¬ r.summary.status = "abnormal") ∧
       (r ∈ (processBatch items).abnormal_reports ↔ r.summary.status = "abnormal"))) := by
  refine ⟨?_, ?_, rfl, ?_⟩
  · unfold processBatch
    simpa using List.length_eq_countP_add_countP (fun item => outcomeOk item.2) items
  · unfold processBatch
    simpa using (batchBuckets_length items).1.symm
  · intro path r hmem
    constructor
    · show r ∈ (batchBuckets items).1 ↔ _
      rw [(batchBuckets_mem items r).1]
      exact and_iff_right ⟨path, hmem⟩
    · show r ∈ (batchBuckets items).2.1 ↔ _
      rw [(batchBuckets_mem items r).2]
      exact and_iff_right ⟨path, hmem⟩

/-! ## Claims C5, C6, C8: classification gaps, uniform policy, role-based recoloring -/

/-- C5: an absent value classifies as "not evaluated" with no color; a
missing reference range classifies as "no reference available" with no
color; neither is an error (`classify` is total), such measurements never
contribute to the abnormality count, and the color component agrees with
the grid's own `getColorForValue` on the corresponding tier. -/
theorem classification_gap_not_error :
    (∀ (tierTable : RangeTable) (compound : String),
      classify tierTable compound none = (Verdict.notEvaluated, Color.noColor)) ∧
    (∀ (tierTable : RangeTable) (compound : String) (v : ℚ),
      rangeLookup tierTable compound = none →
      classify tierTable compound (some v) = (Verdict.noReference, Color.noColor)) ∧
    (∀ (patientTable : RangeTable) (fileName : String) (ms : List Measurement)
      (m : Measurement),
      m.value = none ∨ rangeLookup patientTable m.analyte = none →
      (analyzeDocument patientTable fileName (ms ++ [m])).summary.abnormal_count =
        (analyzeDocument patientTable fileName ms).summary.abnormal_count) ∧
    (∀ (pd : ProcessedReportData) (compound : String) (value : Option ℚ),
      (classify pd.reference_ranges.patient compound value).2 =
        getColorForValue (some pd) compound value false false false) := by
  refine ⟨fun _ _ => rfl, ?_, ?_, ?_⟩
  · intro tierTable compound v hlook
    simp [classify, hlook]
  · intro patientTable fileName ms m hgap
    have hm : (if isAbnormalVerdict (classify patientTable m.analyte m.value).1 then
        some (⟨m.analyte, (classify patientTable m.analyte m.value).1⟩ : AbnormalityEntry)
      else none) = none := by
      rcases hgap with hv | hr
      · simp [classify, hv, isAbnormalVerdict]
      · rcases hval : m.value with _ | v
        · simp [classify, hval, isAbnormalVerdict]
        · simp [classify, hval, hr, isAbnormalVerdict]
    unfold analyzeDocument
    simp only [List.filterMap_append, List.filterMap_cons, List.filterMap_nil]
    simp only at hm
    simp [hm]
  · intro pd compound value
    rcases value with _ | v
    · rfl
    · unfold classify getColorForValue
      rcases hlook : rangeLookup pd.reference_ranges.patient compound with _ | ⟨mn, mx⟩
      · simp [hlook]
      · simp only [hlook]
        by_cases h1 : mn ≤ v ∧ v ≤ mx
        · simp [h1]
        · by_cases h2 : v < mn * (0.5 : ℚ) ∨ v > mx * (1.5 : ℚ) <;> simp [h1, h2]

/-- C5 witness: the gap cases at concrete inputs (empty table, absent
value), discharging each hypothesis of the theorem. -/
theorem classification_gap_not_error_witness :
    classify ([] : RangeTable) "ALA" none = (Verdict.notEvaluated, Color.noColor) ∧
    classify ([] : RangeTable) "ALA" (some 3) = (Verdict.noReference, Color.noColor) ∧
    (analyzeDocument ([] : RangeTable) "report.pdf"
        ([⟨"GLY", some 3⟩] ++ [⟨"ALA", none⟩])).summary.abnormal_count =
      (analyzeDocument ([] : RangeTable) "report.pdf"
        [⟨"GLY", some 3⟩]).summary.abnormal_count :=
  ⟨classification_gap_not_error.1 [] "ALA",
   classification_gap_not_error.2.1 [] "ALA" 3 (by rfl),
   classification_gap_not_error.2.2.1 [] "report.pdf" [⟨"GLY", some 3⟩] ⟨"ALA", none⟩
     (Or.inl rfl)⟩

/-- C6: the critical-threshold policy is uniform.  The classification of a
present value factors through the selected `(lower, upper)` pair alone —
two compound/tier combinations whose lookups agree classify every value
identically — and the cutoffs always use the fixed multipliers `0.5` and
`1.5` of `applyCriticalPolicy`, never compound-specific rules. -/
theorem criticalPolicy_uniform (pd pd' : ProcessedReportData) (c c' : String) (v : ℚ)
    (b1 b2 r b1' b2' r' : Bool)
    (hsel : selectRanges pd c b1 b2 r = selectRanges pd' c' b1' b2' r') :
    getColorForValue (some pd) c (some v) b1 b2 r =
      getColorForValue (some pd') c' (some v) b1' b2' r' ∧
    getColorForValue (some pd) c (some v) b1 b2 r =
      (match selectRanges pd c b1 b2 r with
       | none => Color.noColor
       | some (mn, mx) => applyCriticalPolicy mn mx v) := by
  refine ⟨?_, getColorForValue_eq_policy pd c v b1 b2 r⟩
  rw [getColorForValue_eq_policy, getColorForValue_eq_policy, hsel]

/-- C6 witness: two different compounds on different tiers with the same
configured range classify a concrete value identically. -/
theorem criticalPolicy_uniform_witness :
    selectRanges ⟨⟨[("ALA", (100, 400))], [], [], none, []⟩⟩ "ALA" false false false =
      selectRanges ⟨⟨[], [("C0", (100, 400))], [], none, []⟩⟩ "C0" true false false ∧
    getColorForValue (some ⟨⟨[("ALA", (100, 400))], [], [], none, []⟩⟩) "ALA"
        (some 650) false false false =
      getColorForValue (some ⟨⟨[], [("C0", (100, 400))], [], none, []⟩⟩) "C0"
        (some 650) true false false :=
  ⟨rfl, (criticalPolicy_uniform ⟨⟨[("ALA", (100, 400))], [], [], none, []⟩⟩
      ⟨⟨[], [("C0", (100, 400))], [], none, []⟩⟩ "ALA" "C0" 650
      false false false true false false rfl).1⟩

/-- With the ratio flag at its default `false`, the recoloring ignores the
ratios table entirely. -/
theorem getColorForValueDefault_ignores_ratios (rr : ReferenceRanges)
    (ratios' : Option RangeTable) (compound : String) (value : Option ℚ)
    (b1 b2 : Bool) :
    getColorForValueDefault (some ⟨{ rr with ratios := ratios' }⟩) compound value b1 b2 =
      getColorForValueDefault (some ⟨rr⟩) compound value b1 b2 := by
  rcases value with _ | v
  · rfl
  · rfl

/-- C8: the color recomputed by `onCellEditingStopped` is selected solely
from the row's role flags (control-1 table, else control-2 table, else
patient table) — never from the ratios table, because the recoloring call
omits the `isRatio` argument, which defaults to `false`: replacing the
ratios table changes nothing about an edit, and the recolored value
factors through the role-selected range. -/
theorem editRecolor_role_only :
    (∀ (rr : ReferenceRanges) (ratios' : Option RangeTable) (st : GridState)
      (ev : EditEvent),
      onCellEditingStopped (some ⟨{ rr with ratios := ratios' }⟩) st ev =
        onCellEditingStopped (some ⟨rr⟩) st ev) ∧
    (∀ (pd : ProcessedReportData) (compound : String) (v : ℚ) (b1 b2 : Bool),
      getColorForValueDefault (some pd) compound (some v) b1 b2 =
        match (if b1 then rangeLookup pd.reference_ranges.control_1 compound
          else if b2 then rangeLookup pd.reference_ranges.control_2 compound
          else rangeLookup pd.reference_ranges.patient compound) with
        | none => Color.noColor
        | some (mn, mx) => applyCriticalPolicy mn mx v) := by
  constructor
  · intro rr ratios' st ev
    unfold onCellEditingStopped
    simp only [getColorForValueDefault_ignores_ratios]
  · intro pd compound v b1 b2
    have h := getColorForValue_eq_policy pd compound v b1 b2 false
    rw [getColorForValueDefault, h]
    rfl

/-- C1 counterexample: with the configured range `(-4, -2)` and value `-3`,
the code classifies green (the value lies inside the range), yet
`-3 < 0.5 × (-4) = -2`, so the claim's "critical iff" clause demands red;
the claim as stated is therefore false. -/
theorem claimC1_false :
    getColorForValue (some pdNegRange) "GLY" (some (-3)) false false false = Color.green ∧
    ((-3 : ℚ) < (-4) * (0.5 : ℚ) ∨ ((-3 : ℚ)) > (-2) * (1.5 : ℚ)) ∧
    ¬ claimC1 := by
  have hsel : selectRanges pdNegRange "GLY" false false false = some (-4, -2) := rfl
  have hgreen : getColorForValue (some pdNegRange) "GLY" (some (-3)) false false false =
      Color.green := by
    rw [getColorForValue_eq_policy, hsel]
    unfold applyCriticalPolicy
    norm_num
  refine ⟨hgreen, by norm_num, fun h => ?_⟩
  have hinst := h pdNegRange "GLY" (-3) false false false (-4) (-2) hsel (by norm_num)
  have hred : getColorForValue (some pdNegRange) "GLY" (some (-3)) false false false =
      Color.red := hinst.2.1.mpr (by norm_num)
  rw [hgreen] at hred
  exact Color.noConfusion hred

/-- C1 amended: the same three-way classification property holds for every
configured range with a nonnegative lower bound (`0 ≤ lower ≤ upper`, as
all concentration reference ranges are); in particular the boundaries
`v = lower` and `v = upper` are green. -/
theorem getColorForValue_classification (pd : ProcessedReportData) (compound : String)
    (v : ℚ) (b1 b2 r : Bool) (mn mx : ℚ)
    (hconf : selectRanges pd compound b1 b2 r = some (mn, mx))
    (h0 : 0 ≤ mn) (hle : mn ≤ mx) :
    rangeClassSpec mn mx v (getColorForValue (some pd) compound (some v) b1 b2 r) := by
  rw [getColorForValue_eq_policy, hconf]
  unfold applyCriticalPolicy rangeClassSpec
  by_cases hin : mn ≤ v ∧ v ≤ mx
  · have hnotlow : ¬ v < mn * (0.5 : ℚ) := by nlinarith [hin.1, hin.2]
    have hnothigh : ¬ v > mx * (1.5 : ℚ) := by nlinarith [hin.1, hin.2]
    simp [hin, hnotlow, hnothigh]
  · by_cases hcrit : v < mn * (0.5 : ℚ) ∨ v > mx * (1.5 : ℚ) <;>
      simp [hin, hcrit]

/-- C1 amended, witness: the range `(100, 400)` classifies value `400`
(the upper boundary) green, applying the theorem at concrete inputs. -/
theorem getColorForValue_classification_witness :
    selectRanges ⟨⟨[("ALA", (100, 400))], [], [], none, []⟩⟩ "ALA" false false false =
      some (100, 400) ∧
    rangeClassSpec 100 400 400
      (getColorForValue (some ⟨⟨[("ALA", (100, 400))], [], [], none, []⟩⟩) "ALA"
        (some 400) false false false) :=
  ⟨rfl, getColorForValue_classification ⟨⟨[("ALA", (100, 400))], [], [], none, []⟩⟩
    "ALA" 400 false false false 100 400 rfl (by norm_num) (by norm_num)⟩

/-! ## Claim C10: non-numeric edits are rejected -/

/-- C10: when the entered text does not parse as a number
(`parseFloat` is `NaN`), the edit is rejected: the handler leaves the
component state (row data, colors, edited-cell marks) untouched and issues
exactly one `setDataValue` call resetting the cell to its old value, and
the column's `valueSetter` refuses the value without touching the row. -/
theorem invalidEdit_leaves_state_unchanged (processedData : Option ProcessedReportData)
    (st : GridState) (ev : EditEvent)
    (hfield : ¬ (ev.field = "sampleName" ∨ ev.field = "rowType"))
    (hchanged : strictEq ev.newValue ev.oldValue = false)
    (hnan : parseFloat ev.newValue = none) :
    onCellEditingStopped processedData st ev = (st, [(ev.data.id, ev.field, ev.oldValue)]) ∧
    valueSetter ev.data ev.field ev.newValue = (ev.data, false) := by
  constructor
  · unfold onCellEditingStopped
    rw [if_neg hfield, hchanged, hnan]
    rfl
  · unfold valueSetter
    rw [hnan]

/-- C10 witness: the concrete entered text `"abc"` on a populated one-row
grid is rejected with the reset action and an unchanged state. -/
theorem invalidEdit_leaves_state_unchanged_witness :
    onCellEditingStopped
      (some ⟨⟨[("ALA", (100, 400))], [], [], none, []⟩⟩)
      ⟨[⟨0, false, false, [("ALA", JsVal.num 250), ("ALA_color", JsVal.str "green")]⟩], []⟩
      ⟨⟨0, false, false, [("ALA", JsVal.num 250), ("ALA_color", JsVal.str "green")]⟩,
        "ALA", JsVal.str "abc", JsVal.num 250⟩ =
      (⟨[⟨0, false, false, [("ALA", JsVal.num 250), ("ALA_color", JsVal.str "green")]⟩], []⟩,
        [(0, "ALA", JsVal.num 250)]) ∧
    valueSetter ⟨0, false, false, [("ALA", JsVal.num 250), ("ALA_color", JsVal.str "green")]⟩
      "ALA" (JsVal.str "abc") =
      (⟨0, false, false, [("ALA", JsVal.num 250), ("ALA_color", JsVal.str "green")]⟩, false) :=
  invalidEdit_leaves_state_unchanged
    (some ⟨⟨[("ALA", (100, 400))], [], [], none, []⟩⟩)
    ⟨[⟨0, false, false, [("ALA", JsVal.num 250), ("ALA_color", JsVal.str "green")]⟩], []⟩
    ⟨⟨0, false, false, [("ALA", JsVal.num 250), ("ALA_color", JsVal.str "green")]⟩,
      "ALA", JsVal.str "abc", JsVal.num 250⟩
    (by decide) (by decide) (by decide)

/-! ## Claim C7: document-analysis upload validation -/

/-- C7: on the document-analysis upload path, a file whose computed
extension is `pdf` is accepted exactly when its size is at most 50MB, a
file whose computed extension is `zip` exactly when its size is at most
200MB, and a file with any other extension is rejected outright; a
rejected file produces an error message and never becomes the selected
file submitted to analysis. -/
theorem uploadValidation (fileName : String) (fileSize : ℚ) :
    (fileExtensionOf fileName = "pdf" →
      (reportAnalyserValidateFile fileName fileSize = none ↔
        fileSize ≤ 50 * (1024 * 1024))) ∧
    (fileExtensionOf fileName = "zip" →
      (reportAnalyserValidateFile fileName fileSize = none ↔
        fileSize ≤ 200 * (1024 * 1024))) ∧
    (fileExtensionOf fileName ≠ "pdf" → fileExtensionOf fileName ≠ "zip" →
      (reportAnalyserValidateFile fileName fileSize).isSome = true) ∧
    (∀ selectedFile, (reportAnalyserValidateFile fileName fileSize).isSome = true →
      handleFileChange selectedFile fileName fileSize = selectedFile) := by
  have hacc : (splitOnChar ',' (".pdf,.zip" : String).data).map
      (fun t => String.mk (removeFirstChar '.' (trimChars t))) = ["pdf", "zip"] := by decide
  have hpos : (0 : ℚ) < 1024 * 1024 := by norm_num
  refine ⟨?_, ?_, ?_, ?_⟩
  · intro hext
    simp only [reportAnalyserValidateFile, validateFile, hacc, hext]
    rw [if_neg (by simp)]
    simp only [if_true]
    constructor
    · intro hnone
      by_contra hgt
      rw [if_pos ?hcond] at hnone
      · exact Option.noConfusion hnone
      · case hcond =>
          rw [gt_iff_lt, lt_div_iff₀ hpos]
          nlinarith [not_le.mp hgt]
    · intro hle
      rw [if_neg ?hcond]
      case hcond =>
        rw [gt_iff_lt, not_lt, div_le_iff₀ hpos]
        nlinarith [hle]
  · intro hext
    simp only [reportAnalyserValidateFile, validateFile, hacc, hext]
    rw [if_neg (by simp)]
    rw [if_neg (by decide : ¬ ("zip" : String) = "pdf")]
    constructor
    · intro hnone
      by_contra hgt
      rw [if_pos ?hcond] at hnone
      · exact Option.noConfusion hnone
      · case hcond =>
          rw [gt_iff_lt, lt_div_iff₀ hpos]
          nlinarith [not_le.mp hgt]
    · intro hle
      rw [if_neg ?hcond]
      case hcond =>
        rw [gt_iff_lt, not_lt, div_le_iff₀ hpos]
        nlinarith [hle]
  · intro h1 h2
    simp only [reportAnalyserValidateFile, validateFile, hacc]
    rw [if_pos ?hcond]
    · rfl
    · case hcond =>
        simp only [List.mem_cons, List.not_mem_nil, or_false]
        rintro (h | h)
        · exact h1 h
        · exact h2 h
  · intro selectedFile hrej
    unfold handleFileChange
    rcases hvf : reportAnalyserValidateFile fileName fileSize with _ | msg
    · rw [hvf] at hrej
      exact Bool.noConfusion hrej
    · rfl

/-- C7 witness: a 1000-byte `report.pdf` is accepted (1000 ≤ 50MB), and an
unsupported `report.txt` is rejected and never selected, applying
the theorem at concrete inputs. -/
theorem uploadValidation_witness :
    (reportAnalyserValidateFile "report.pdf" 1000 = none ↔
      (1000 : ℚ) ≤ 50 * (1024 * 1024)) ∧
    (reportAnalyserValidateFile "report.txt" 1000).isSome = true ∧
    handleFileChange none "report.txt" 1000 = none :=
  ⟨(uploadValidation "report.pdf" 1000).1 (by decide),
   (uploadValidation "report.txt" 1000).2.2.1 (by decide) (by decide),
   (uploadValidation "report.txt" 1000).2.2.2 none
     ((uploadValidation "report.txt" 1000).2.2.1 (by decide) (by decide))⟩

/-! ## Claim C9: the cell-key round trip of `getEditedData` -/

theorem digitChar_digit (d : Nat) (h : d < 10) : isDigitChar (Nat.digitChar d) = true := by
  interval_cases d <;> decide

theorem digitVal_digitChar (d : Nat) (h : d < 10) : digitVal (Nat.digitChar d) = d := by
  interval_cases d <;> decide

theorem natChars_all_digits (n : Nat) : ∀ c ∈ natChars n, isDigitChar c = true := by
  induction n using Nat.strong_induction_on with
  | _ n ih =>
    unfold natChars
    split
    · next h =>
      intro c hc
      rw [List.mem_singleton] at hc
      exact hc ▸ digitChar_digit n h
    · next h =>
      intro c hc
      rw [List.mem_append] at hc
      rcases hc with hc | hc
      · exact ih (n / 10) (Nat.div_lt_self (by omega) (by omega)) c hc
      · rw [List.mem_singleton] at hc
        exact hc ▸ digitChar_digit (n % 10) (Nat.mod_lt n (by omega))

theorem natChars_ne_nil (n : Nat) : natChars n ≠ [] := by
  unfold natChars
  split
  · simp
  · simp

theorem digitsToNat_append_single (a : List Char) (c : Char) :
    digitsToNat (a ++ [c]) = digitsToNat a * 10 + digitVal c := by
  simp [digitsToNat, List.foldl_append]

theorem digitsToNat_natChars (n : Nat) : digitsToNat (natChars n) = n := by
  induction n using Nat.strong_induction_on with
  | _ n ih =>
    unfold natChars
    split
    · next h =>
      show digitsToNat [Nat.digitChar n] = n
      simp [digitsToNat, digitVal_digitChar n h]
    · next h =>
      rw [digitsToNat_append_single, ih (n / 10) (Nat.div_lt_self (by omega) (by omega)),
        digitVal_digitChar (n % 10) (Nat.mod_lt n (by omega))]
      omega

theorem toDigitsCore_eq_natChars (fuel : Nat) :
    ∀ (n : Nat) (ds : List Char), n < 10 ^ (fuel + 1) →
      Nat.toDigitsCore 10 (fuel + 1) n ds = natChars n ++ ds := by
  induction fuel with
  | zero =>
    intro n ds h
    have h10 : n < 10 := by simpa using h
    have hdiv : n / 10 = 0 := Nat.div_eq_of_lt h10
    have hmod : n % 10 = n := Nat.mod_eq_of_lt h10
    rw [natChars, dif_pos h10]
    simp [Nat.toDigitsCore, hdiv, hmod]
  | succ f ih =>
    intro n ds h
    by_cases h10 : n < 10
    · have hdiv : n / 10 = 0 := Nat.div_eq_of_lt h10
      have hmod : n % 10 = n := Nat.mod_eq_of_lt h10
      rw [natChars, dif_pos h10]
      simp [Nat.toDigitsCore, hdiv, hmod]
    · have hdiv : ¬ n / 10 = 0 := by omega
      have hquot : n / 10 < 10 ^ (f + 1) := by
        rw [Nat.div_lt_iff_lt_mul (by omega : 0 < 10)]
        calc n < 10 ^ (f + 1 + 1) := h
        _ = 10 ^ (f + 1) * 10 := by rw [pow_succ]
      have hstep : Nat.toDigitsCore 10 (f + 1 + 1) n ds =
          if n / 10 = 0 then Nat.digitChar (n % 10) :: ds
          else Nat.toDigitsCore 10 (f + 1) (n / 10) (Nat.digitChar (n % 10) :: ds) := by
        simp [Nat.toDigitsCore]
      have hn : natChars n = natChars (n / 10) ++ [Nat.digitChar (n % 10)] := by
        conv_lhs => rw [natChars]
        rw [dif_neg h10]
      rw [hstep, if_neg hdiv, ih (n / 10) _ hquot, hn, List.append_assoc]
      rfl

/-- The decimal string of a row id, char by char. -/
theorem toString_nat_data (n : Nat) : (toString n).data = natChars n := by
  show (Nat.repr n).data = natChars n
  have hfuel : n < 10 ^ (n + 1) := by
    calc n < 10 ^ n := Nat.lt_pow_self (by norm_num) n
    _ ≤ 10 ^ (n + 1) := Nat.pow_le_pow_right (by norm_num) (by omega)
  show (Nat.toDigits 10 n).asString.data = natChars n
  rw [Nat.toDigits, toDigitsCore_eq_natChars n n [] hfuel]
  simp [List.asString]

theorem takeWhile_eq_self_of_all {p : Char → Bool} :
    ∀ (l : List Char), (∀ c ∈ l, p c = true) → l.takeWhile p = l
  | [], _ => rfl
  | c :: cs, h => by
    rw [List.takeWhile_cons, if_pos (h c (List.mem_cons_self c cs))]
    rw [takeWhile_eq_self_of_all cs (fun x hx => h x (List.mem_cons_of_mem c hx))]

/-- `parseInt` inverts the construction of the decimal row-id string. -/
theorem parseIntJS_toString (n : Nat) : parseIntJS (toString n) = some n := by
  unfold parseIntJS
  rw [toString_nat_data, takeWhile_eq_self_of_all (natChars n) (natChars_all_digits n)]
  rw [if_neg (by simpa [List.isEmpty_iff] using natChars_ne_nil n)]
  rw [digitsToNat_natChars]

theorem hyphen_not_mem_natChars (n : Nat) : '-' ∉ natChars n := by
  intro hmem
  have := natChars_all_digits n '-' hmem
  exact Bool.noConfusion this

/-- Splitting a hyphen-free list is the identity. -/
theorem splitOnChar_of_not_mem (sep : Char) :
    ∀ (a : List Char), sep ∉ a → splitOnChar sep a = [a]
  | [], _ => rfl
  | c :: cs, h => by
    have hc : ¬ c = sep := fun e => h (e ▸ List.mem_cons_self c cs)
    rw [splitOnChar]
    simp only [if_neg hc,
      splitOnChar_of_not_mem sep cs (fun hm => h (List.mem_cons_of_mem c hm))]

/-- Splitting at the first separator after a hyphen-free prefix. -/
theorem splitOnChar_append_sep (sep : Char) :
    ∀ (a b : List Char), sep ∉ a →
      splitOnChar sep (a ++ sep :: b) = a :: splitOnChar sep b
  | [], b, _ => by
    rw [List.nil_append, splitOnChar]
    simp
  | c :: cs, b, h => by
    have hc : ¬ c = sep := fun e => h (e ▸ List.mem_cons_self c cs)
    rw [List.cons_append, splitOnChar]
    simp only [if_neg hc,
      splitOnChar_append_sep sep cs b (fun hm => h (List.mem_cons_of_mem c hm))]

theorem jsGet_jsSet_same : ∀ (obj : List (String × JsVal)) (k : String) (v : JsVal),
    jsGet (jsSet obj k v) k = v
  | [], k, v => by simp [jsGet, jsSet, List.find?]
  | (k', w) :: rest, k, v => by
    by_cases hk : k' = k
    · simp [jsGet, jsSet, hk, List.find?]
    · rw [jsSet, if_neg hk]
      show jsGet ((k', w) :: jsSet rest k v) k = v
      rw [jsGet, List.find?_cons_of_neg _ (by simpa using hk)]
      exact jsGet_jsSet_same rest k v

theorem jsGet_jsSet_other : ∀ (obj : List (String × JsVal)) (k key : String) (v : JsVal),
    ¬ k = key → jsGet (jsSet obj k v) key = jsGet obj key
  | [], k, key, v, h => by
    rw [jsSet]
    rw [jsGet, List.find?_cons_of_neg _ (by simpa using h)]
    rfl
  | (k', w) :: rest, k, key, v, h => by
    by_cases hk : k' = k
    · subst hk
      rw [jsSet, if_pos rfl]
      by_cases hkey : k' = key
      · exact absurd hkey (hkey ▸ h)
      · rw [jsGet, jsGet, List.find?_cons_of_neg _ (by simpa using h),
          List.find?_cons_of_neg _ (by simpa using hkey)]
    · rw [jsSet, if_neg hk]
      by_cases hkey : k' = key
      · subst hkey
        rw [jsGet, jsGet, List.find?_cons_of_pos _ (by simp),
          List.find?_cons_of_pos _ (by simp)]
      · rw [jsGet, jsGet, List.find?_cons_of_neg _ (by simpa using hkey),
          List.find?_cons_of_neg _ (by simpa using hkey)]
        exact jsGet_jsSet_other rest k key v h

/-- Keys outside the processed list keep their binding through the fold. -/
theorem getEditedData_foldl_preserve (st : GridState) :
    ∀ (keys : List String) (init : List (String × JsVal)) (key : String),
      key ∉ keys →
      jsGet (keys.foldl (fun acc k =>
        match editedCellValue st k with
        | none => acc
        | some v => jsSet acc k v) init) key = jsGet init key
  | [], init, key, _ => rfl
  | k :: rest, init, key, h => by
    have hk : ¬ k = key := fun e => h (e ▸ List.mem_cons_self k rest)
    have hrest : key ∉ rest := fun hm => h (List.mem_cons_of_mem k hm)
    rw [List.foldl_cons]
    rcases hval : editedCellValue st k with _ | v
    · simpa using getEditedData_foldl_preserve st rest init key hrest
    · rw [getEditedData_foldl_preserve st rest (jsSet init k v) key hrest]
      exact jsGet_jsSet_other init k key v hk

/-- A key in the processed list ends bound to its (deterministic) edited
value. -/
theorem getEditedData_foldl_mem (st : GridState) :
    ∀ (keys : List String) (init : List (String × JsVal)) (key : String) (v : JsVal),
      key ∈ keys → editedCellValue st key = some v →
      jsGet (keys.foldl (fun acc k =>
        match editedCellValue st k with
        | none => acc
        | some w => jsSet acc k w) init) key = v
  | [], _, key, v, hmem, _ => absurd hmem (List.not_mem_nil key)
  | k :: rest, init, key, v, hmem, hval => by
    rw [List.foldl_cons]
    by_cases hkrest : key ∈ rest
    · rcases hv : editedCellValue st k with _ | w
      · exact getEditedData_foldl_mem st rest init key v hkrest hval
      · exact getEditedData_foldl_mem st rest (jsSet init k w) key v hkrest hval
    · have hk : key = k := by
        rcases List.mem_cons.mp hmem with h | h
        · exact h
        · exact absurd h hkrest
      subst hk
      rw [hval]
      rw [getEditedData_foldl_preserve st rest (jsSet init key v) key hkrest]
      exact jsGet_jsSet_same init key v

/-- C9: for an edited cell whose compound name contains no `'-'`, the map
assembled at approval time by `getEditedData` sends the cell key
`"rowId-compound"` to that cell's current grid value: splitting the key at
`'-'` recovers exactly the row id and the compound, so the lookup retrieves
the row's value whenever the row is found and the value is defined. -/
theorem getEditedData_roundtrip (st : GridState) (rowId : Nat) (compound : String)
    (row : Row) (v : JsVal)
    (hcomp : '-' ∉ compound.data)
    (hkey : (toString rowId ++ "-" ++ compound) ∈ st.editedCells)
    (hfind : st.rowData.find? (fun r => r.id = rowId) = some row)
    (hval : jsGet row.cells compound = v)
    (hdef : v ≠ JsVal.undef) :
    jsGet (getEditedData st) (toString rowId ++ "-" ++ compound) = v := by
  have hdash : ("-" : String).data = ['-'] := by decide
  have hdata : (toString rowId ++ "-" ++ compound).data =
      natChars rowId ++ '-' :: compound.data := by
    rw [String.data_append, String.data_append, toString_nat_data, List.append_assoc, hdash]
    rfl
  have hsplit : splitOnChar '-' (toString rowId ++ "-" ++ compound).data =
      [natChars rowId, compound.data] := by
    rw [hdata, splitOnChar_append_sep '-' _ _ (hyphen_not_mem_natChars rowId),
      splitOnChar_of_not_mem '-' compound.data hcomp]
  have hmk : String.mk (natChars rowId) = toString rowId :=
    String.ext (by rw [toString_nat_data])
  have hmkc : String.mk compound.data = compound := String.ext rfl
  have hcell : editedCellValue st (toString rowId ++ "-" ++ compound) = some v := by
    rcases v with s | q | _
    · simp only [editedCellValue, hsplit, List.map_cons, List.map_nil, hmk, hmkc,
        List.getD_cons_zero, List.getD_cons_succ, parseIntJS_toString, hfind, hval]
    · simp only [editedCellValue, hsplit, List.map_cons, List.map_nil, hmk, hmkc,
        List.getD_cons_zero, List.getD_cons_succ, parseIntJS_toString, hfind, hval]
    · exact absurd rfl hdef
  unfold getEditedData
  exact getEditedData_foldl_mem st st.editedCells [] _ v hkey hcell

/-- C9 witness: on a one-row grid with edited cell `"12-ALA"`, the
edited-data map returns the row's current ALA value, applying the theorem
at concrete inputs. -/
theorem getEditedData_roundtrip_witness :
    jsGet (getEditedData
        ⟨[⟨12, false, false, [("ALA", JsVal.num 5)]⟩], ["12-ALA"]⟩)
      (toString 12 ++ "-" ++ "ALA") = JsVal.num 5 :=
  getEditedData_roundtrip
    ⟨[⟨12, false, false, [("ALA", JsVal.num 5)]⟩], ["12-ALA"]⟩ 12 "ALA"
    ⟨12, false, false, [("ALA", JsVal.num 5)]⟩ (JsVal.num 5)
    (by decide) (by decide) (by decide) (by decide) (by decide)

/-! ## Claim C2: filename validation against the spec grammar -/

/-- The regex match of `extractFileInfo` succeeds with captures `(d, t)`
exactly when the filename decomposes per the grammar
`^(\d{8})_(AA|AC|AC_EXT)\.txt$`. -/
theorem extractFileInfo_spec (name d t : String) :
    extractFileInfo name = some (d, t) ↔
      (d.data.length = 8 ∧ (∀ c ∈ d.data, isDigitChar c = true) ∧
       t ∈ (["AA", "AC", "AC_EXT"] : List String) ∧
       name = d ++ "_" ++ t ++ ".txt") := by
  constructor
  · intro h
    unfold extractFileInfo at h
    by_cases h1 : (name.data.take 8).length = 8 ∧ (name.data.take 8).all isDigitChar
    case neg => rw [if_neg h1] at h; exact Option.noConfusion h
    rw [if_pos h1] at h
    have hname : ∀ (tail : String), name.data.drop 8 = tail.data →
        String.mk (name.data.take 8) = d → tail = "_" ++ t ++ ".txt" →
        name = d ++ "_" ++ t ++ ".txt" := by
      intro tail hdrop hd htail
      apply String.ext
      rw [String.data_append, String.data_append, String.data_append]
      conv_lhs => rw [← List.take_append_drop 8 name.data]
      rw [hdrop, htail, ← hd]
      simp [List.append_assoc, String.data_append]
    split_ifs at h with h2 h3 h4
    · obtain ⟨hd, ht⟩ := Prod.mk.injEq .. ▸ Option.some.inj h
      subst ht
      refine ⟨?_, ?_, by decide, hname "_AA.txt" h2 hd (by decide)⟩
      · rw [← hd]; exact h1.1
      · rw [← hd]
        exact List.all_eq_true.mp h1.2
    · obtain ⟨hd, ht⟩ := Prod.mk.injEq .. ▸ Option.some.inj h
      subst ht
      refine ⟨?_, ?_, by decide, hname "_AC.txt" h3 hd (by decide)⟩
      · rw [← hd]; exact h1.1
      · rw [← hd]
        exact List.all_eq_true.mp h1.2
    · obtain ⟨hd, ht⟩ := Prod.mk.injEq .. ▸ Option.some.inj h
      subst ht
      refine ⟨?_, ?_, by decide, hname "_AC_EXT.txt" h4 hd (by decide)⟩
      · rw [← hd]; exact h1.1
      · rw [← hd]
        exact List.all_eq_true.mp h1.2
  · rintro ⟨hlen, hdig, ht, rfl⟩
    have hdata : (d ++ "_" ++ t ++ ".txt").data =
        d.data ++ ("_" ++ t ++ ".txt").data := by
      simp [String.data_append, List.append_assoc]
    have htake : (d ++ "_" ++ t ++ ".txt").data.take 8 = d.data := by
      rw [hdata]; exact List.take_left' hlen
    have hdrop : (d ++ "_" ++ t ++ ".txt").data.drop 8 = ("_" ++ t ++ ".txt").data := by
      rw [hdata]; exact List.drop_left' hlen
    have hmkd : String.mk d.data = d := String.ext rfl
    unfold extractFileInfo
    rw [if_pos ?hcond]
    case hcond =>
      rw [htake]
      exact ⟨hlen, List.all_eq_true.mpr hdig⟩
    simp only [List.mem_cons, List.not_mem_nil, or_false] at ht
    rcases ht with rfl | rfl | rfl
    · rw [if_pos ?hAA]
      case hAA =>
        rw [hdrop]
        decide
      rw [htake, hmkd]
    · rw [if_neg ?hnAA, if_pos ?hAC]
      case hnAA =>
        rw [hdrop]
        decide
      case hAC =>
        rw [hdrop]
        decide
      rw [htake, hmkd]
    · rw [if_neg ?hnAA2, if_neg ?hnAC, if_pos ?hEXT]
      case hnAA2 =>
        rw [hdrop]
        decide
      case hnAC =>
        rw [hdrop]
        decide
      case hEXT =>
        rw [hdrop]
        decide
      rw [htake, hmkd]

/-- The validator's set condition implies the spec's distinct-cover
condition, for types drawn from the grammar. -/
theorem typesCover_of_code (t1 t2 t3 : String)
    (h1 : t1 ∈ (["AA", "AC", "AC_EXT"] : List String))
    (h2 : t2 ∈ (["AA", "AC", "AC_EXT"] : List String))
    (h3 : t3 ∈ (["AA", "AC", "AC_EXT"] : List String))
    (hc : [t1, t2, t3].dedup.length = 3 ∧ ("AA" : String) ∈ [t1, t2, t3] ∧
      ("AC" : String) ∈ [t1, t2, t3] ∧ ("AC_EXT" : String) ∈ [t1, t2, t3]) :
    t1 ≠ t2 ∧ t1 ≠ t3 ∧ t2 ≠ t3 ∧
      (∀ t ∈ (["AA", "AC", "AC_EXT"] : List String), t = t1 ∨ t = t2 ∨ t = t3) := by
  simp only [List.mem_cons, List.not_mem_nil, or_false] at h1 h2 h3
  rcases h1 with rfl | rfl | rfl <;> rcases h2 with rfl | rfl | rfl <;>
    rcases h3 with rfl | rfl | rfl <;> revert hc <;> decide

/-- The spec's distinct-cover condition implies the validator's set
condition, for types drawn from the grammar. -/
theorem typesCode_of_cover (t1 t2 t3 : String)
    (h1 : t1 ∈ (["AA", "AC", "AC_EXT"] : List String))
    (h2 : t2 ∈ (["AA", "AC", "AC_EXT"] : List String))
    (h3 : t3 ∈ (["AA", "AC", "AC_EXT"] : List String))
    (hne12 : t1 ≠ t2) (hne13 : t1 ≠ t3) (hne23 : t2 ≠ t3) :
    [t1, t2, t3].dedup.length = 3 ∧ ("AA" : String) ∈ [t1, t2, t3] ∧
      ("AC" : String) ∈ [t1, t2, t3] ∧ ("AC_EXT" : String) ∈ [t1, t2, t3] := by
  simp only [List.mem_cons, List.not_mem_nil, or_false] at h1 h2 h3
  rcases h1 with rfl | rfl | rfl <;> rcases h2 with rfl | rfl | rfl <;>
    rcases h3 with rfl | rfl | rfl <;> revert hne12 hne13 hne23 <;> decide

/-- A spec-valid triplet passes the validator. -/
theorem validateFiles_of_spec (n1 n2 n3 : String) (h : specValidTriplet n1 n2 n3) :
    isAccepted (validateFiles n1 n2 n3) = true := by
  obtain ⟨dd, mm, yyyy, t1, t2, t3, hg1, hg2, hg3, h12, h13, h23, hcov,
    hday1, hday2, hmon1, hmon2, hyr1, hyr2⟩ := h
  obtain ⟨hl1, hl2, hl3, hq1, hq2, hq3, ht1, hn1⟩ := hg1
  obtain ⟨_, _, _, _, _, _, ht2, hn2⟩ := hg2
  obtain ⟨_, _, _, _, _, _, ht3, hn3⟩ := hg3
  have hddata : (dd ++ mm ++ yyyy).data = dd.data ++ (mm.data ++ yyyy.data) := by
    rw [String.data_append, String.data_append, List.append_assoc]
  have hdlen : (dd ++ mm ++ yyyy).data.length = 8 := by
    rw [hddata]
    simp only [List.length_append]
    omega
  have hdig : ∀ c ∈ (dd ++ mm ++ yyyy).data, isDigitChar c = true := by
    rw [hddata]
    intro c hc
    rcases List.mem_append.mp hc with hc | hc
    · exact List.all_eq_true.mp hq1 c hc
    · rcases List.mem_append.mp hc with hc | hc
      · exact List.all_eq_true.mp hq2 c hc
      · exact List.all_eq_true.mp hq3 c hc
  have he1 : extractFileInfo n1 = some (dd ++ mm ++ yyyy, t1) :=
    (extractFileInfo_spec n1 (dd ++ mm ++ yyyy) t1).mpr ⟨hdlen, hdig, ht1, hn1⟩
  have he2 : extractFileInfo n2 = some (dd ++ mm ++ yyyy, t2) :=
    (extractFileInfo_spec n2 (dd ++ mm ++ yyyy) t2).mpr ⟨hdlen, hdig, ht2, hn2⟩
  have he3 : extractFileInfo n3 = some (dd ++ mm ++ yyyy, t3) :=
    (extractFileInfo_spec n3 (dd ++ mm ++ yyyy) t3).mpr ⟨hdlen, hdig, ht3, hn3⟩
  have hcode := typesCode_of_cover t1 t2 t3 ht1 ht2 ht3 h12 h13 h23
  have htake2 : (dd ++ mm ++ yyyy).data.take 2 = dd.data := by
    rw [hddata]
    exact List.take_left' hl1
  have hmmtake : ((dd ++ mm ++ yyyy).data.drop 2).take 2 = mm.data := by
    rw [hddata, List.drop_left' hl1]
    exact List.take_left' hl2
  have hdrop4 : (dd ++ mm ++ yyyy).data.drop 4 = yyyy.data := by
    have h4 : (dd ++ mm ++ yyyy).data.drop 4 = (((dd ++ mm ++ yyyy).data.drop 2).drop 2) := by
      rw [List.drop_drop]
    rw [h4, hddata, List.drop_left' hl1]
    exact List.drop_left' hl2
  simp only [validateFiles, he1, he2, he3]
  rw [if_neg (by simp)]
  rw [if_neg (not_not_intro hcode)]
  rw [htake2, hmmtake, hdrop4]
  rw [if_neg (by omega), if_neg (by omega), if_neg (by omega)]
  rfl

/-- A triplet the validator accepts is spec-valid. -/
theorem spec_of_validateFiles (n1 n2 n3 : String)
    (h : isAccepted (validateFiles n1 n2 n3) = true) :
    specValidTriplet n1 n2 n3 := by
  unfold validateFiles at h
  rcases he1 : extractFileInfo n1 with _ | ⟨d1, t1⟩
  · simp only [he1, isAccepted] at h
    exact Bool.noConfusion h
  rcases he2 : extractFileInfo n2 with _ | ⟨d2, t2⟩
  · simp only [he1, he2, isAccepted] at h
    exact Bool.noConfusion h
  rcases he3 : extractFileInfo n3 with _ | ⟨d3, t3⟩
  · simp only [he1, he2, he3, isAccepted] at h
    exact Bool.noConfusion h
  simp only [he1, he2, he3] at h
  by_cases hdate : d1 = d2 ∧ d2 = d3
  case neg =>
    rw [if_pos hdate] at h
    exact Bool.noConfusion h
  rw [if_neg (not_not_intro hdate)] at h
  by_cases hty : [t1, t2, t3].dedup.length = 3 ∧ ("AA" : String) ∈ [t1, t2, t3] ∧
      ("AC" : String) ∈ [t1, t2, t3] ∧ ("AC_EXT" : String) ∈ [t1, t2, t3]
  case neg =>
    rw [if_pos hty] at h
    exact Bool.noConfusion h
  rw [if_neg (not_not_intro hty)] at h
  by_cases hday : digitsToNat (d1.data.take 2) < 1 ∨ digitsToNat (d1.data.take 2) > 31
  case pos =>
    rw [if_pos hday] at h
    exact Bool.noConfusion h
  rw [if_neg hday] at h
  by_cases hmon : digitsToNat ((d1.data.drop 2).take 2) < 1 ∨
      digitsToNat ((d1.data.drop 2).take 2) > 12
  case pos =>
    rw [if_pos hmon] at h
    exact Bool.noConfusion h
  rw [if_neg hmon] at h
  by_cases hyr : digitsToNat (d1.data.drop 4) < 2000 ∨ digitsToNat (d1.data.drop 4) > 2100
  case pos =>
    rw [if_pos hyr] at h
    exact Bool.noConfusion h
  obtain ⟨hd12, hd23⟩ := hdate
  obtain ⟨hlen1, hdig1, ht1, hn1⟩ := (extractFileInfo_spec n1 d1 t1).mp he1
  obtain ⟨_, _, ht2, hn2⟩ := (extractFileInfo_spec n2 d2 t2).mp he2
  obtain ⟨_, _, ht3, hn3⟩ := (extractFileInfo_spec n3 d3 t3).mp he3
  subst hd12
  subst hd23
  have hsplit : d1 = String.mk (d1.data.take 2) ++ String.mk ((d1.data.drop 2).take 2) ++
      String.mk (d1.data.drop 4) := by
    apply String.ext
    rw [String.data_append, String.data_append]
    show d1.data = d1.data.take 2 ++ (d1.data.drop 2).take 2 ++ d1.data.drop 4
    rw [List.append_assoc]
    conv_lhs => rw [← List.take_append_drop 2 d1.data]
    congr 1
    conv_lhs => rw [← List.take_append_drop 2 (d1.data.drop 2)]
    congr 1
    rw [List.drop_drop]
  refine ⟨String.mk (d1.data.take 2), String.mk ((d1.data.drop 2).take 2),
    String.mk (d1.data.drop 4), t1, t2, t3, ?_, ?_, ?_, ?_, ?_, ?_, ?_, ?_, ?_, ?_, ?_, ?_, ?_⟩
  · refine ⟨?_, ?_, ?_, ?_, ?_, ?_, ht1, ?_⟩
    · show (d1.data.take 2).length = 2
      rw [List.length_take, hlen1]
      omega
    · show ((d1.data.drop 2).take 2).length = 2
      rw [List.length_take, List.length_drop, hlen1]
      omega
    · show (d1.data.drop 4).length = 4
      rw [List.length_drop, hlen1]
    · exact List.all_eq_true.mpr (fun c hc => hdig1 c (List.take_subset 2 d1.data hc))
    · exact List.all_eq_true.mpr (fun c hc => hdig1 c
        (List.drop_subset 2 d1.data (List.take_subset 2 (d1.data.drop 2) hc)))
    · exact List.all_eq_true.mpr (fun c hc => hdig1 c (List.drop_subset 4 d1.data hc))
    · rw [hn1, ← hsplit]
  · refine ⟨?_, ?_, ?_, ?_, ?_, ?_, ht2, ?_⟩
    · show (d1.data.take 2).length = 2
      rw [List.length_take, hlen1]
      omega
    · show ((d1.data.drop 2).take 2).length = 2
      rw [List.length_take, List.length_drop, hlen1]
      omega
    · show (d1.data.drop 4).length = 4
      rw [List.length_drop, hlen1]
    · exact List.all_eq_true.mpr (fun c hc => hdig1 c (List.take_subset 2 d1.data hc))
    · exact List.all_eq_true.mpr (fun c hc => hdig1 c
        (List.drop_subset 2 d1.data (List.take_subset 2 (d1.data.drop 2) hc)))
    · exact List.all_eq_true.mpr (fun c hc => hdig1 c (List.drop_subset 4 d1.data hc))
    · rw [hn2, ← hsplit]
  · refine ⟨?_, ?_, ?_, ?_, ?_, ?_, ht3, ?_⟩
    · show (d1.data.take 2).length = 2
      rw [List.length_take, hlen1]
      omega
    · show ((d1.data.drop 2).take 2).length = 2
      rw [List.length_take, List.length_drop, hlen1]
      omega
    · show (d1.data.drop 4).length = 4
      rw [List.length_drop, hlen1]
    · exact List.all_eq_true.mpr (fun c hc => hdig1 c (List.take_subset 2 d1.data hc))
    · exact List.all_eq_true.mpr (fun c hc => hdig1 c
        (List.drop_subset 2 d1.data (List.take_subset 2 (d1.data.drop 2) hc)))
    · exact List.all_eq_true.mpr (fun c hc => hdig1 c (List.drop_subset 4 d1.data hc))
    · rw [hn3, ← hsplit]
  · exact (typesCover_of_code t1 t2 t3 ht1 ht2 ht3 hty).1
  · exact (typesCover_of_code t1 t2 t3 ht1 ht2 ht3 hty).2.1
  · exact (typesCover_of_code t1 t2 t3 ht1 ht2 ht3 hty).2.2.1
  · exact (typesCover_of_code t1 t2 t3 ht1 ht2 ht3 hty).2.2.2
  · show 1 ≤ digitsToNat (d1.data.take 2)
    omega
  · show digitsToNat (d1.data.take 2) ≤ 31
    omega
  · show 1 ≤ digitsToNat ((d1.data.drop 2).take 2)
    omega
  · show digitsToNat ((d1.data.drop 2).take 2) ≤ 12
    omega
  · show 2000 ≤ digitsToNat (d1.data.drop 4)
    omega
  · show digitsToNat (d1.data.drop 4) ≤ 2100
    omega

/-- C2: the three-file validation succeeds iff each filename matches the
grammar `^(\d{2})(\d{2})(\d{4})_(AA|AC|AC_EXT)\.txt$`, all three share the
date token, the three types exactly cover {AA, AC, AC_EXT} with no
duplicates, and day ∈ [1,31], month ∈ [1,12], year ∈ [2000,2100]; the
matching triplet is accepted with its parsed date reported, while a date
mismatch or a malformed name is rejected. -/
theorem validateFiles_correct :
    (∀ n1 n2 n3 : String,
      isAccepted (validateFiles n1 n2 n3) = true ↔ specValidTriplet n1 n2 n3) ∧
    validateFiles "01072024_AA.txt" "01072024_AC.txt" "01072024_AC_EXT.txt" =
      Except.ok "01072024" ∧
    isAccepted (validateFiles "01072024_AA.txt" "02072024_AC.txt"
      "01072024_AC_EXT.txt") = false ∧
    isAccepted (validateFiles "2024-07-01_AA.txt" "01072024_AC.txt"
      "01072024_AC_EXT.txt") = false :=
  ⟨fun n1 n2 n3 => ⟨spec_of_validateFiles n1 n2 n3, validateFiles_of_spec n1 n2 n3⟩,
   by rfl, by rfl, by rfl⟩
